import Mathlib

/-!
Verification development for the eDisGo example-notebook repository.

The repository snippet consists of example notebooks (a basic grid
reinforcement example, an electromobility example and a plotting example)
together with a changelog fragment.  The core implementation of the eDisGo
package is not part of the snippet; where a property depends on behaviour
of the package itself, the corresponding definition below is modelled from
the documented behaviour (see the doc comment of each such definition).
Definitions corresponding to code that *is* present in the notebooks
(download helpers, invocation lists) are translated from that code.
-/

/-! ### Grid reinforcement (basic example notebook, section "Grid reinforcement") -/

/-- The individual grid-expansion measures named by the notebook. -/
inductive ReinforceMeasure
  | overloading
  | mv_voltage
  | station_voltage
  | lv_voltage
deriving DecidableEq, Repr

/-- An event during a run of `reinforce`: either a reinforcement measure is
carried out, or a power-flow analysis is conducted. -/
inductive ReinforceEvent
  | measure (m : ReinforceMeasure)
  | power_flow_analysis
deriving DecidableEq, Repr

/-- Modelled from the spec: the order in which grid-expansion measures are
conducted by `EDisGo.reinforce` (the implementation is not part of the
snippet; the order is documented in the basic example notebook):
transformers/lines for overloading, MV lines for voltage, distribution
substations for voltage, LV lines for voltage, and transformers/lines for
overloading again. -/
def reinforce_measure_order : List ReinforceMeasure :=
  [.overloading, .mv_voltage, .station_voltage, .lv_voltage, .overloading]

/-- Modelled from the spec: the event trace of one `reinforce` invocation;
after each reinforcement measure a power-flow analysis is conducted. -/
def reinforce_trace : List ReinforceEvent :=
  reinforce_measure_order.flatMap (fun m => [.measure m, .power_flow_analysis])

/-- The sequence of measures occurring in a trace. -/
def measures_of_trace (tr : List ReinforceEvent) : List ReinforceMeasure :=
  tr.filterMap (fun e => match e with
    | .measure m => some m
    | .power_flow_analysis => none)

/-- Whether an event is a reinforcement measure. -/
def ReinforceEvent.is_measure : ReinforceEvent → Bool
  | .measure _ => true
  | .power_flow_analysis => false

/-! ### Worst-case analysis set-up (basic example notebook, "Specifying worst-cases") -/

/-- The two worst cases the notebook describes. -/
def worst_case_options : List String := ["feed-in_case", "load_case"]

/-- Modelled from the spec: `EDisGo.set_time_series_worst_case_analysis`
(implementation not part of the snippet).  It takes an optional `cases`
argument selecting `"feed-in_case"`, `"load_case"` or both; by default both
cases are set up.  Invalid selections are rejected. -/
def set_time_series_worst_case_analysis (cases : Option (List String)) :
    Except String (List String) :=
  let cs := match cases with
    | none => worst_case_options
    | some l => l
  if cs.isEmpty then
    .error "no worst case given"
  else if cs.all (fun c => decide (c ∈ worst_case_options)) then
    .ok cs
  else
    .error "invalid worst case"

/-! ### Theorems for claims C1 and C5 -/

/-- **C1.** Grid expansion measures are conducted in exactly the order:
overloading, MV-line voltage, distribution-substation voltage, LV-line
voltage, overloading; the overloading step occurs exactly twice (first and
last), and after each reinforcement step a power-flow analysis is
conducted. -/
theorem reinforce_order_and_power_flow :
    measures_of_trace reinforce_trace =
      [.overloading, .mv_voltage, .station_voltage, .lv_voltage, .overloading] ∧
    reinforce_measure_order.count .overloading = 2 ∧
    reinforce_measure_order.head? = some .overloading ∧
    reinforce_measure_order.getLast? = some .overloading ∧
    (∀ i, i < reinforce_trace.length →
      (reinforce_trace.getD i .power_flow_analysis).is_measure = true →
      reinforce_trace.getD (i + 1) .power_flow_analysis = .power_flow_analysis) := by
  refine ⟨by decide, by decide, by decide, by decide, ?_⟩
  decide

/-- Witness for C1: the trace starts with the overloading measure and the
event right after it is a power-flow analysis. -/
theorem reinforce_order_and_power_flow_witness :
    reinforce_trace.getD 1 .power_flow_analysis = .power_flow_analysis :=
  reinforce_order_and_power_flow.2.2.2.2 0 (by decide) (by decide)

/-- **C5.** `set_time_series_worst_case_analysis` accepts the cases
`"feed-in_case"`, `"load_case"` or both, and when called without a `cases`
argument both worst cases are set up. -/
theorem set_time_series_worst_case_analysis_cases :
    set_time_series_worst_case_analysis none = .ok ["feed-in_case", "load_case"] ∧
    (∀ cs : List String,
      (set_time_series_worst_case_analysis (some cs)).isOk = true ↔
        (cs ≠ [] ∧ ∀ c ∈ cs, c ∈ worst_case_options)) := by
  constructor
  · rfl
  · intro cs
    unfold set_time_series_worst_case_analysis
    by_cases he : cs.isEmpty
    · simp [he, List.isEmpty_iff.mp he, Except.isOk, Except.toBool]
    · have hne : cs ≠ [] := fun h => he (by simp [h])
      by_cases ha : ∀ c ∈ cs, c ∈ worst_case_options
      · have hb : (cs.all fun c => decide (c ∈ worst_case_options)) = true := by
          simpa [List.all_eq_true] using ha
        simp only [he, hb, Except.isOk, Except.toBool, if_true, Bool.false_eq_true,
          if_false, true_iff]
        exact ⟨hne, ha⟩
      · have hb : (cs.all fun c => decide (c ∈ worst_case_options)) = false := by
          simpa [List.all_eq_false] using ha
        simp [he, hb, Except.isOk, Except.toBool, ha]

/-! ### Charging strategies (electromobility example notebook)

The implementation of `EDisGo.apply_charging_strategy` is not part of the
snippet; the following model is built from the behaviour documented in the
electromobility notebook.  Time is discretised into equidistant steps,
energies are measured in integral units per step. -/

/-- SimBEV use cases of a charging process. -/
inductive ChargingUseCase
  | home
  | work
  | shared
deriving DecidableEq, Repr

/-- Modelled from the spec: home and work charging is private charging
infrastructure; shared (public) charging infrastructure is not private. -/
def ChargingUseCase.is_private : ChargingUseCase → Bool
  | .home => true
  | .work => true
  | .shared => false

/-- One SimBEV charging process: the EV stands from time step `park_start`
for `park_time` steps, requires `chargingdemand` energy units and can draw
at most `netto_charging_capacity` energy units per step. -/
structure ChargingProcess where
  park_start : Nat
  park_time : Nat
  chargingdemand : Nat
  netto_charging_capacity : Nat
  use_case : ChargingUseCase
deriving DecidableEq, Repr

/-- Greedy charging amounts: over `n` steps, charge `min cap remaining`
energy units in each step. -/
def charge_steps : Nat → Nat → Nat → List Nat
  | 0, _, _ => []
  | n + 1, cap, remaining =>
      min cap remaining :: charge_steps n cap (remaining - min cap remaining)

/-- The chronological time steps of the standing period of a process. -/
def standing_steps (p : ChargingProcess) : List Nat :=
  (List.range p.park_time).map (p.park_start + ·)

/-- Modelled from the spec: the `dumb` strategy charges every car directly
after arrival with the maximum possible charging capacity.  The result is a
list of (time step, charged energy) pairs. -/
def charging_series_dumb (p : ChargingProcess) : List (Nat × Nat) :=
  (standing_steps p).zip
    (charge_steps p.park_time p.netto_charging_capacity p.chargingdemand)

/-- Ceiling division on naturals. -/
def ceil_div (a b : Nat) : Nat := (a + b - 1) / b

/-- Modelled from the spec: the minimum possible charging power of the
`reduced` strategy, determined by the parking time and the parameter
`minimum_charging_capacity_factor` (given as the fraction `fnum / fden` of
the maximum charging capacity). -/
def minimum_charging_power (fnum fden : Nat) (p : ChargingProcess) : Nat :=
  min p.netto_charging_capacity
    (max (ceil_div p.chargingdemand p.park_time)
      (p.netto_charging_capacity * fnum / fden))

/-- Modelled from the spec: the `reduced` strategy charges private charging
processes directly after arrival with the minimum possible charging power;
only private charging processes are used as flexibility, so other
processes are charged as in the `dumb` strategy. -/
def charging_series_reduced (fnum fden : Nat) (p : ChargingProcess) :
    List (Nat × Nat) :=
  if p.use_case.is_private then
    (standing_steps p).zip
      (charge_steps p.park_time (minimum_charging_power fnum fden p)
        p.chargingdemand)
  else
    charging_series_dumb p

/-- The standing time steps of a process ordered by ascending residual load
(`rl` gives the residual load of each time step). -/
def residual_order (rl : List Int) (p : ChargingProcess) : List Nat :=
  (standing_steps p).insertionSort (fun i j => rl.getD i 0 ≤ rl.getD j 0)

/-- Modelled from the spec: the `residual` strategy charges private
charging processes with maximum capacity in the standing time steps with
the lowest residual load of the MV grid; only private charging processes
are used as flexibility, so other processes are charged as in the `dumb`
strategy. -/
def charging_series_residual (rl : List Int) (p : ChargingProcess) :
    List (Nat × Nat) :=
  if p.use_case.is_private then
    (residual_order rl p).zip
      (charge_steps p.park_time p.netto_charging_capacity p.chargingdemand)
  else
    charging_series_dumb p

/-- The charging strategies offered by the tool. -/
def charging_strategies : List String := ["dumb", "reduced", "residual"]

/-- Modelled from the spec: `EDisGo.apply_charging_strategy`.  It accepts
the strategies `"dumb"`, `"reduced"` and `"residual"`; called without a
strategy argument it applies the `dumb` strategy; any other strategy name
is rejected. -/
def apply_charging_strategy (strategy : Option String) (fnum fden : Nat)
    (rl : List Int) (p : ChargingProcess) :
    Except String (List (Nat × Nat)) :=
  let s := strategy.getD "dumb"
  if s = "dumb" then .ok (charging_series_dumb p)
  else if s = "reduced" then .ok (charging_series_reduced fnum fden p)
  else if s = "residual" then .ok (charging_series_residual rl p)
  else .error ("Invalid charging strategy " ++ s)

/-- The total energy charged by a charging series. -/
def total_energy (series : List (Nat × Nat)) : Nat :=
  (series.map Prod.snd).sum

/-- A charging process can be fully charged during its standing time. -/
def fully_chargeable (p : ChargingProcess) : Prop :=
  p.chargingdemand ≤ p.netto_charging_capacity * p.park_time

instance (p : ChargingProcess) : Decidable (fully_chargeable p) := by
  unfold fully_chargeable; infer_instance

/-! ### Lemmas about greedy charging -/

theorem length_charge_steps (n cap d : Nat) : (charge_steps n cap d).length = n := by
  induction n generalizing d with
  | zero => rfl
  | succ n ih => simp [charge_steps, ih]

theorem sum_charge_steps (n cap d : Nat) :
    (charge_steps n cap d).sum = min d (cap * n) := by
  induction n generalizing d with
  | zero => simp [charge_steps]
  | succ n ih =>
    simp only [charge_steps, List.sum_cons, ih]
    rw [Nat.mul_succ]
    generalize cap * n = x
    omega

theorem getD_charge_steps (n cap d i : Nat) (h : i < n) :
    (charge_steps n cap d).getD i 0 = min cap (d - cap * i) := by
  induction n generalizing d i with
  | zero => omega
  | succ n ih =>
    cases i with
    | zero => simp [charge_steps]
    | succ i =>
      have hi : i < n := by omega
      simp only [charge_steps, List.getD_cons_succ]
      rw [ih _ _ hi, Nat.mul_succ]
      generalize cap * i = x
      omega

theorem length_standing_steps (p : ChargingProcess) :
    (standing_steps p).length = p.park_time := by
  simp [standing_steps]

theorem standing_steps_bounds (p : ChargingProcess) {t : Nat}
    (ht : t ∈ standing_steps p) :
    p.park_start ≤ t ∧ t < p.park_start + p.park_time := by
  unfold standing_steps at ht
  simp only [List.mem_map, List.mem_range] at ht
  obtain ⟨i, hi, rfl⟩ := ht
  omega

theorem length_residual_order (rl : List Int) (p : ChargingProcess) :
    (residual_order rl p).length = p.park_time := by
  unfold residual_order
  rw [List.length_insertionSort, length_standing_steps]

theorem mem_residual_order (rl : List Int) (p : ChargingProcess) {t : Nat}
    (ht : t ∈ residual_order rl p) : t ∈ standing_steps p := by
  unfold residual_order at ht
  exact (List.perm_insertionSort _ _).mem_iff.mp ht

theorem le_mul_ceil_div (a b : Nat) (hb : 0 < b) : a ≤ ceil_div a b * b := by
  unfold ceil_div
  have h1 := Nat.div_add_mod (a + b - 1) b
  have h2 : (a + b - 1) % b < b := Nat.mod_lt _ hb
  generalize hq : (a + b - 1) / b = q at h1 ⊢
  generalize hr : (a + b - 1) % b = r at h1 h2
  rw [Nat.mul_comm q b]
  generalize hx : b * q = x at h1 ⊢
  omega

theorem chargingdemand_le_min_power_mul (fnum fden : Nat) (p : ChargingProcess)
    (h : fully_chargeable p) :
    p.chargingdemand ≤ minimum_charging_power fnum fden p * p.park_time := by
  unfold fully_chargeable at h
  unfold minimum_charging_power
  rcases Nat.eq_zero_or_pos p.park_time with ht | ht
  · rw [ht] at h ⊢
    simp at h
    simp [h]
  · rcases le_total p.netto_charging_capacity
      (max (ceil_div p.chargingdemand p.park_time)
        (p.netto_charging_capacity * fnum / fden)) with hm | hm
    · rw [Nat.min_eq_left hm]
      exact h
    · rw [Nat.min_eq_right hm]
      calc p.chargingdemand
          ≤ ceil_div p.chargingdemand p.park_time * p.park_time :=
            le_mul_ceil_div _ _ ht
        _ ≤ max (ceil_div p.chargingdemand p.park_time)
              (p.netto_charging_capacity * fnum / fden) * p.park_time :=
            Nat.mul_le_mul_right _ (Nat.le_max_left _ _)

/-! ### Coverage of the charging requirement by each strategy -/

theorem total_energy_dumb (p : ChargingProcess) (h : fully_chargeable p) :
    total_energy (charging_series_dumb p) = p.chargingdemand := by
  unfold total_energy charging_series_dumb
  rw [List.map_snd_zip _ _ (by rw [length_charge_steps, length_standing_steps])]
  rw [sum_charge_steps]
  exact Nat.min_eq_left h

theorem total_energy_reduced (fnum fden : Nat) (p : ChargingProcess)
    (h : fully_chargeable p) :
    total_energy (charging_series_reduced fnum fden p) = p.chargingdemand := by
  unfold charging_series_reduced
  by_cases hp : p.use_case.is_private
  · simp only [hp, if_true]
    unfold total_energy
    rw [List.map_snd_zip _ _ (by rw [length_charge_steps, length_standing_steps])]
    rw [sum_charge_steps]
    exact Nat.min_eq_left (chargingdemand_le_min_power_mul fnum fden p h)
  · simp only [hp, Bool.false_eq_true, if_false]
    exact total_energy_dumb p h

theorem total_energy_residual (rl : List Int) (p : ChargingProcess)
    (h : fully_chargeable p) :
    total_energy (charging_series_residual rl p) = p.chargingdemand := by
  unfold charging_series_residual
  by_cases hp : p.use_case.is_private
  · simp only [hp, if_true]
    unfold total_energy
    rw [List.map_snd_zip _ _ (by rw [length_charge_steps, length_residual_order])]
    rw [sum_charge_steps]
    exact Nat.min_eq_left h
  · simp only [hp, Bool.false_eq_true, if_false]
    exact total_energy_dumb p h

theorem mem_dumb_within_standing (p : ChargingProcess) {q : Nat × Nat}
    (hq : q ∈ charging_series_dumb p) :
    p.park_start ≤ q.1 ∧ q.1 < p.park_start + p.park_time := by
  obtain ⟨a, b⟩ := q
  exact standing_steps_bounds p (List.of_mem_zip hq).1

theorem mem_reduced_within_standing (fnum fden : Nat) (p : ChargingProcess)
    {q : Nat × Nat} (hq : q ∈ charging_series_reduced fnum fden p) :
    p.park_start ≤ q.1 ∧ q.1 < p.park_start + p.park_time := by
  unfold charging_series_reduced at hq
  by_cases hp : p.use_case.is_private
  · simp only [hp, if_true] at hq
    obtain ⟨a, b⟩ := q
    exact standing_steps_bounds p (List.of_mem_zip hq).1
  · simp only [hp, Bool.false_eq_true, if_false] at hq
    exact mem_dumb_within_standing p hq

theorem mem_residual_within_standing (rl : List Int) (p : ChargingProcess)
    {q : Nat × Nat} (hq : q ∈ charging_series_residual rl p) :
    p.park_start ≤ q.1 ∧ q.1 < p.park_start + p.park_time := by
  unfold charging_series_residual at hq
  by_cases hp : p.use_case.is_private
  · simp only [hp, if_true] at hq
    obtain ⟨a, b⟩ := q
    exact standing_steps_bounds p (mem_residual_order rl p (List.of_mem_zip hq).1)
  · simp only [hp, Bool.false_eq_true, if_false] at hq
    exact mem_dumb_within_standing p hq

theorem reduced_eq_dumb_of_not_private (fnum fden : Nat) (p : ChargingProcess)
    (hp : p.use_case.is_private = false) :
    charging_series_reduced fnum fden p = charging_series_dumb p := by
  unfold charging_series_reduced
  simp [hp]

theorem residual_eq_dumb_of_not_private (rl : List Int) (p : ChargingProcess)
    (hp : p.use_case.is_private = false) :
    charging_series_residual rl p = charging_series_dumb p := by
  unfold charging_series_residual
  simp [hp]

/-! ### Theorems for claims C2 and C3 -/

/-- **C2.** For every charging strategy (dumb, reduced, residual) and every
charging process, `apply_charging_strategy` produces a charging time series
that fully covers the charging requirement of the process and that charges
only during the standing time; a process is flexibilised (its series
differs from the dumb series) only if it is a private charging process,
and — since the series always charges only within the standing time and
covers the demand — only if the EV can still be fully charged during its
standing time. -/
theorem apply_charging_strategy_covers_demand (s : String)
    (hs : s ∈ charging_strategies) (fnum fden : Nat) (rl : List Int)
    (p : ChargingProcess) (h : fully_chargeable p) :
    ∃ series, apply_charging_strategy (some s) fnum fden rl p = .ok series ∧
      total_energy series = p.chargingdemand ∧
      (∀ q ∈ series, p.park_start ≤ q.1 ∧ q.1 < p.park_start + p.park_time) ∧
      (series ≠ charging_series_dumb p → p.use_case.is_private = true) := by
  have hmem : s = "dumb" ∨ s = "reduced" ∨ s = "residual" := by
    simpa [charging_strategies] using hs
  rcases hmem with rfl | rfl | rfl
  · exact ⟨charging_series_dumb p, rfl, total_energy_dumb p h,
      fun q hq => mem_dumb_within_standing p hq, fun hne => absurd rfl hne⟩
  · refine ⟨charging_series_reduced fnum fden p, rfl,
      total_energy_reduced fnum fden p h,
      fun q hq => mem_reduced_within_standing fnum fden p hq, ?_⟩
    intro hne
    by_contra hpriv
    exact hne (reduced_eq_dumb_of_not_private fnum fden p
      (Bool.not_eq_true _ ▸ Bool.eq_false_iff.mpr hpriv))
  · refine ⟨charging_series_residual rl p, rfl,
      total_energy_residual rl p h,
      fun q hq => mem_residual_within_standing rl p hq, ?_⟩
    intro hne
    by_contra hpriv
    exact hne (residual_eq_dumb_of_not_private rl p
      (Bool.eq_false_iff.mpr hpriv))

/-- Witness for C2: the residual strategy applied to a concrete private
charging process (standing from step 0 for 2 steps, demand 3, capacity 2
per step). -/
theorem apply_charging_strategy_covers_demand_witness :
    ∃ series,
      apply_charging_strategy (some "residual") 1 1 [5, 1]
        ⟨0, 2, 3, 2, .home⟩ = .ok series ∧
      total_energy series = 3 ∧
      (∀ q ∈ series, 0 ≤ q.1 ∧ q.1 < 0 + 2) ∧
      (series ≠ charging_series_dumb ⟨0, 2, 3, 2, .home⟩ →
        ChargingUseCase.home.is_private = true) :=
  apply_charging_strategy_covers_demand "residual" (by decide) 1 1 [5, 1]
    ⟨0, 2, 3, 2, .home⟩ (by decide)

/-- **C3.** `apply_charging_strategy` accepts exactly the three strategies
dumb, reduced and residual; called without a strategy argument it applies
the dumb strategy, in which every car is charged directly after arrival
with the maximum possible charging capacity (step `i` of the standing time
charges the maximum of the capacity and the remaining demand). -/
theorem apply_charging_strategy_valid_and_default (fnum fden : Nat)
    (rl : List Int) (p : ChargingProcess) :
    (∀ s : String,
      (apply_charging_strategy (some s) fnum fden rl p).isOk = true ↔
        s ∈ charging_strategies) ∧
    apply_charging_strategy none fnum fden rl p =
      .ok (charging_series_dumb p) ∧
    (∀ i, i < p.park_time →
      (charge_steps p.park_time p.netto_charging_capacity
        p.chargingdemand).getD i 0 =
      min p.netto_charging_capacity
        (p.chargingdemand - p.netto_charging_capacity * i)) := by
  refine ⟨?_, rfl, fun i hi => getD_charge_steps _ _ _ i hi⟩
  intro s
  unfold apply_charging_strategy
  by_cases h1 : s = "dumb"
  · subst h1
    simp [charging_strategies, Except.isOk, Except.toBool]
  · by_cases h2 : s = "reduced"
    · subst h2
      simp [charging_strategies, Except.isOk, Except.toBool]
    · by_cases h3 : s = "residual"
      · subst h3
        simp [charging_strategies, Except.isOk, Except.toBool]
      · simp [h1, h2, h3, charging_strategies, Except.isOk, Except.toBool]

/-- Witness for C3: the first standing step of a concrete process charges
with the full capacity. -/
theorem apply_charging_strategy_valid_and_default_witness :
    (charge_steps 2 2 3).getD 0 0 = min 2 (3 - 2 * 0) :=
  (apply_charging_strategy_valid_and_default 1 1 []
    ⟨0, 2, 3, 2, .home⟩).2.2 0 (by decide)

/-! ### Integration of charging parks (electromobility notebook,
"Integration of charging parks")

The implementation of `EDisGo.import_electromobility` is not part of the
snippet; the integration rules below are modelled from the behaviour
documented in the notebook.  Power ratings are in MVA (as rationals). -/

/-- Voltage level a charging park is integrated into. -/
inductive VoltageLevel
  | lv
  | mv
deriving DecidableEq, Repr

/-- Grid component a charging park gets connected to. -/
inductive ConnectionTarget
  | lv_station
  | lv_household_load
  | lv_commercial_load
  | lv_grid_connection_point
  | hv_mv_station
  | mv_nearest_connection_point_or_cable
deriving DecidableEq, Repr

/-- 0.3 MVA: power rating up to which a charging park goes into the LV grid. -/
def lv_mv_threshold : ℚ := mkRat 3 10

/-- 0.1 MVA: power rating above which an LV charging park is connected
directly to the distribution substation. -/
def lv_station_threshold : ℚ := mkRat 1 10

/-- 4.5 MVA: power rating above which an MV charging park is connected
directly to the HV-MV station. -/
def hv_mv_threshold : ℚ := mkRat 9 2

/-- Modelled from the spec: the LV connection point of a small (≤ 0.1 MVA)
charging park depends on its use case: home → household load, work →
commercial/industrial/agricultural consumer, public → grid connection
point. -/
def lv_use_case_target : ChargingUseCase → ConnectionTarget
  | .home => .lv_household_load
  | .work => .lv_commercial_load
  | .shared => .lv_grid_connection_point

/-- Modelled from the spec: where `import_electromobility` connects a
potential charging park of power rating `r` (MVA) and the given use case. -/
def integrate_charging_park (r : ℚ) (uc : ChargingUseCase) : ConnectionTarget :=
  if r ≤ lv_mv_threshold then
    if lv_station_threshold < r then .lv_station
    else lv_use_case_target uc
  else if hv_mv_threshold < r then .hv_mv_station
  else .mv_nearest_connection_point_or_cable

/-- The voltage level of each connection target. -/
def ConnectionTarget.voltage_level : ConnectionTarget → VoltageLevel
  | .lv_station => .lv
  | .lv_household_load => .lv
  | .lv_commercial_load => .lv
  | .lv_grid_connection_point => .lv
  | .hv_mv_station => .mv
  | .mv_nearest_connection_point_or_cable => .mv

/-- **C4.** A charging park with power rating at most 0.3 MVA is integrated
into the LV grid — directly at the distribution substation if its rating
exceeds 0.1 MVA, otherwise at a load or connection point chosen by use
case — and otherwise into the MV grid, where a rating above 4.5 MVA means
direct connection to the HV-MV station and a rating of at most 4.5 MVA
means connection to the nearest grid connection point or cable. -/
theorem integrate_charging_park_rules (r : ℚ) (uc : ChargingUseCase) :
    (r ≤ lv_mv_threshold →
      (integrate_charging_park r uc).voltage_level = .lv ∧
      (lv_station_threshold < r → integrate_charging_park r uc = .lv_station) ∧
      (r ≤ lv_station_threshold →
        integrate_charging_park r uc = lv_use_case_target uc)) ∧
    (lv_mv_threshold < r →
      (integrate_charging_park r uc).voltage_level = .mv ∧
      (hv_mv_threshold < r → integrate_charging_park r uc = .hv_mv_station) ∧
      (r ≤ hv_mv_threshold →
        integrate_charging_park r uc =
          .mv_nearest_connection_point_or_cable)) := by
  unfold integrate_charging_park
  constructor
  · intro hle
    rw [if_pos hle]
    refine ⟨?_, fun hgt => by rw [if_pos hgt], fun hle2 => by rw [if_neg (by linarith)]⟩
    by_cases hst : lv_station_threshold < r
    · rw [if_pos hst]; rfl
    · rw [if_neg hst]
      cases uc <;> rfl
  · intro hgt
    rw [if_neg (by linarith)]
    refine ⟨?_, fun hgt2 => by rw [if_pos hgt2], fun hle2 => by rw [if_neg (by linarith)]⟩
    by_cases hhv : hv_mv_threshold < r
    · rw [if_pos hhv]; rfl
    · rw [if_neg hhv]; rfl

/-- Witness for C4: a 0.2 MVA home charging park is connected to the LV
distribution substation, and a 5 MVA park to the HV-MV station. -/
theorem integrate_charging_park_rules_witness :
    integrate_charging_park (mkRat 1 5) .home = .lv_station ∧
    integrate_charging_park 5 .work = .hv_mv_station :=
  ⟨((integrate_charging_park_rules (mkRat 1 5) .home).1 (by decide)).2.1 (by decide),
   ((integrate_charging_park_rules 5 .work).2 (by decide)).2.1 (by decide)⟩

/-! ### Download helpers (translated from the notebook code cells)

`download_ding0_example_grid` is defined identically in all three
notebooks; `download_simbev_example_data` and
`download_tracbev_example_data` are defined in the electromobility
notebook.  Each helper is modelled by the list of file names it saves;
the SimBEV and TracBEV helpers are parametrised by the hrefs found on the
listing page they scrape (`listFD`). -/

/-- The base names of the ding0 example grid files. -/
def ding0_grid_files : List String :=
  ["buses", "generators", "lines", "loads", "network", "switches",
   "transformers", "transformers_hvmv"]

/-- Files saved by `download_ding0_example_grid`: "{file}.csv" for every
base name. -/
def download_ding0_example_grid : List String :=
  ding0_grid_files.map (fun f => f ++ ".csv")

/-- `ext` is an ending of the file name `f` (the notebooks use Python's
`str.endswith`). -/
def ends_with (ext f : String) : Bool := ext.data.isSuffixOf f.data

/-- `listFD(url, ext)`: the hrefs on the listing page that end with `ext`
(the notebook additionally strips the directory part of each href, which
does not change its ending). -/
def listFD (hrefs : List String) (ext : String) : List String :=
  hrefs.filter (fun h => ends_with ext h)

/-- Files saved by `download_simbev_example_data`: every csv file listed on
the scenario page, plus `metadata_simbev_run.json`. -/
def download_simbev_example_data (hrefs : List String) : List String :=
  listFD hrefs "csv" ++ ["metadata_simbev_run.json"]

/-- Files saved by `download_tracbev_example_data`: every gpkg file listed
on the scenario page. -/
def download_tracbev_example_data (hrefs : List String) : List String :=
  listFD hrefs "gpkg"

/-- A file name is in CSV or JSON format (by its ending). -/
def is_csv_or_json (f : String) : Bool :=
  ends_with "csv" f || ends_with "json" f

/-- **C6, counterexample.** The TracBEV download helper downloads GeoPackage
(.gpkg) files, which are neither CSV nor JSON: on a listing that contains
"example.gpkg", the helper downloads that file. -/
theorem download_tracbev_not_csv_or_json :
    "example.gpkg" ∈ download_tracbev_example_data ["example.gpkg"] ∧
    is_csv_or_json "example.gpkg" = false := by
  constructor
  · decide
  · decide

/-- **C6, amended.** Files downloaded by the grid download helper are CSV
files and files downloaded by the SimBEV helper are CSV or JSON files, but
every file downloaded by the TracBEV helper is a GeoPackage (.gpkg) file
rather than a CSV or JSON file. -/
theorem download_helpers_file_formats (hrefs : List String) :
    (∀ f ∈ download_ding0_example_grid, ends_with ".csv" f = true) ∧
    (∀ f ∈ download_simbev_example_data hrefs, is_csv_or_json f = true) ∧
    (∀ f ∈ download_tracbev_example_data hrefs, ends_with "gpkg" f = true) := by
  refine ⟨by decide, ?_, ?_⟩
  · intro f hf
    unfold download_simbev_example_data listFD at hf
    rcases List.mem_append.mp hf with hf | hf
    · have := (List.mem_filter.mp hf).2
      unfold is_csv_or_json
      simp [this]
    · simp only [List.mem_singleton] at hf
      subst hf
      decide
  · intro f hf
    unfold download_tracbev_example_data listFD at hf
    exact (List.mem_filter.mp hf).2

/-- Witness for the amended C6: concrete files downloaded from a concrete
listing. -/
theorem download_helpers_file_formats_witness :
    is_csv_or_json "a.csv" = true ∧ ends_with "gpkg" "b.gpkg" = true :=
  ⟨(download_helpers_file_formats ["a.csv", "b.gpkg"]).2.1 "a.csv" (by decide),
   (download_helpers_file_formats ["a.csv", "b.gpkg"]).2.2 "b.gpkg" (by decide)⟩

/-! ### The EDisGo API surface and what the notebooks invoke -/

/-- Modelled from the spec: the methods the top-level EDisGo object
exposes (the class itself is not part of the snippet; the spec lists this
public API surface as observable from the notebooks). -/
def edisgo_api_methods : List String :=
  ["set_timeindex", "set_time_series_active_power_predefined",
   "set_time_series_reactive_power_control",
   "set_time_series_worst_case_analysis", "resample_timeseries",
   "import_electromobility", "apply_charging_strategy", "analyze",
   "reinforce", "import_generators", "plot_mv_grid_topology",
   "plot_mv_line_loading", "plot_mv_grid_expansion_costs",
   "histogram_voltage", "histogram_relative_line_load", "to_graph"]

/-- Modelled from the spec: the result-holding sub-objects the EDisGo
object exposes. -/
def edisgo_api_subobjects : List String :=
  ["topology", "timeseries", "results", "electromobility", "config"]

/-- The EDisGo methods invoked in the code cells of the three notebooks
(basic example, electromobility example, plot example). -/
def notebook_method_invocations : List String :=
  -- basic example notebook, then electromobility example notebook
  ["plot_mv_grid_topology", "set_time_series_worst_case_analysis",
   "import_generators", "to_graph", "analyze", "plot_mv_line_loading",
   "histogram_voltage", "histogram_relative_line_load", "reinforce",
   "plot_mv_grid_expansion_costs",
   "set_timeindex", "set_time_series_active_power_predefined",
   "set_time_series_reactive_power_control", "resample_timeseries",
   "import_electromobility", "apply_charging_strategy"]

/-- The EDisGo sub-objects accessed in the notebooks. -/
def notebook_subobject_accesses : List String :=
  ["topology", "timeseries", "results", "electromobility", "config"]

/-- **C7.** The EDisGo object exposes, and the notebooks invoke, each of
the eleven methods named by the claim, and it exposes the sub-objects
topology, timeseries, results, electromobility and config. -/
theorem edisgo_api_exposes_and_notebooks_invoke :
    (["set_timeindex", "set_time_series_active_power_predefined",
      "set_time_series_reactive_power_control", "resample_timeseries",
      "import_electromobility", "apply_charging_strategy", "analyze",
      "reinforce", "import_generators", "plot_mv_grid_topology",
      "to_graph"].all
      (fun m => m ∈ edisgo_api_methods ∧ m ∈ notebook_method_invocations)) ∧
    (["topology", "timeseries", "results", "electromobility", "config"].all
      (fun o => decide (o ∈ edisgo_api_subobjects))) = true := by
  constructor
  · decide
  · decide

/-- **C9, counterexample.** The notebooks do not invoke *only* the four
operations import_electromobility, apply_charging_strategy, analyze and
reinforce: they also invoke set_time_series_worst_case_analysis. -/
theorem notebooks_invoke_more_than_four_operations :
    "set_time_series_worst_case_analysis" ∈ notebook_method_invocations ∧
    "set_time_series_worst_case_analysis" ∉
      ["import_electromobility", "apply_charging_strategy", "analyze",
       "reinforce"] := by
  constructor
  · decide
  · decide

/-- **C9, amended.** The notebooks invoke the opaque high-level operations
import_electromobility, apply_charging_strategy, analyze and reinforce
among other public EDisGo API methods, and every method they invoke
belongs to the public API surface — no internal algorithm, state machine
or error handling of those operations is invoked. -/
theorem notebooks_invoke_only_public_api :
    (["import_electromobility", "apply_charging_strategy", "analyze",
      "reinforce"].all (fun m => decide (m ∈ notebook_method_invocations))) = true ∧
    (notebook_method_invocations.all
      (fun m => decide (m ∈ edisgo_api_methods))) = true := by
  constructor
  · decide
  · decide

/-! ### Results export (basic example notebook, "Evaluate results") -/

/-- A stored result table (rows of cells). -/
abbrev ResultsTable := List (List String)

/-- Modelled from the spec: the Results object holding voltages (`v_res`),
line loadings (`s_res`), equipment changes and grid expansion costs (the
Results class itself is not part of the snippet). -/
structure Results where
  v_res : ResultsTable
  s_res : ResultsTable
  equipment_changes : ResultsTable
  grid_expansion_costs : ResultsTable
deriving DecidableEq, Repr

/-- Modelled from the spec: `results.save(directory)` exports the stored
result tables to CSV files in the given directory; the result is the list
of (file path, table contents) pairs written. -/
def Results.save (r : Results) (directory : String) :
    List (String × ResultsTable) :=
  [(directory ++ "/voltages.csv", r.v_res),
   (directory ++ "/loadings.csv", r.s_res),
   (directory ++ "/equipment_changes.csv", r.equipment_changes),
   (directory ++ "/grid_expansion_costs.csv", r.grid_expansion_costs)]

/-- **C8.** For every results object, `save` called with a directory path
exports exactly the stored result tables (voltages, loadings, equipment
changes, costs), and every written file lies in that directory and is a
CSV file. -/
theorem results_save_exports_csv (r : Results) (directory : String) :
    (r.save directory).map Prod.snd =
      [r.v_res, r.s_res, r.equipment_changes, r.grid_expansion_costs] ∧
    (∀ q ∈ r.save directory,
      ∃ base, q.1 = directory ++ base ∧ ends_with ".csv" base = true) := by
  constructor
  · rfl
  · intro q hq
    unfold Results.save at hq
    simp only [List.mem_cons, List.not_mem_nil, or_false] at hq
    rcases hq with rfl | rfl | rfl | rfl
    · exact ⟨"/voltages.csv", rfl, by decide⟩
    · exact ⟨"/loadings.csv", rfl, by decide⟩
    · exact ⟨"/equipment_changes.csv", rfl, by decide⟩
    · exact ⟨"/grid_expansion_costs.csv", rfl, by decide⟩

/-- Witness for C8: saving an empty results object to "results" writes the
voltages file into that directory as CSV. -/
theorem results_save_exports_csv_witness :
    ∃ base, ("results" ++ "/voltages.csv" : String) = "results" ++ base ∧
      ends_with ".csv" base = true :=
  (results_save_exports_csv ⟨[], [], [], []⟩ "results").2
    ("results" ++ "/voltages.csv", []) (by decide)

/-! ### Topology, LV grids and get_lv_grid (basic example notebook,
"eDisGo data structure")

The Topology class is not part of the snippet; the model below follows the
behaviour shown in the notebook: LV grids are identified by an integer id,
their name is the string "LVGrid_<id>", `Topology.lv_grids` collects the
LV grids of the buses table, `MVGrid.lv_grids` delegates to it, and
`get_lv_grid` accepts a name string or an integer id. -/

/-- The decimal digit characters. -/
def digitChar : Nat → Char
  | 0 => '0'
  | 1 => '1'
  | 2 => '2'
  | 3 => '3'
  | 4 => '4'
  | 5 => '5'
  | 6 => '6'
  | 7 => '7'
  | 8 => '8'
  | _ => '9'

/-- Little-endian decimal digits of a natural number (empty for 0). -/
def natDigits (n : Nat) : List Nat :=
  if h : n = 0 then []
  else (n % 10) :: natDigits (n / 10)
termination_by n
decreasing_by exact Nat.div_lt_self (Nat.pos_of_ne_zero h) (by omega)

/-- Value of a little-endian digit list. -/
def ofDigits : List Nat → Nat
  | [] => 0
  | d :: ds => d + 10 * ofDigits ds

/-- The digit string of an LV grid id (big-endian, "0" for id 0). -/
def lv_id_digits (n : Nat) : List Nat :=
  if n = 0 then [0] else (natDigits n).reverse

/-- An LV grid of the topology, identified by its integer id. -/
structure LVGrid where
  id : Nat
deriving DecidableEq, Repr

/-- The name of an LV grid: "LVGrid_<id>". -/
def LVGrid.name (g : LVGrid) : String :=
  "LVGrid_" ++ String.mk ((lv_id_digits g.id).map digitChar)

/-- A bus of the buses table; buses inside an LV grid carry that grid's id. -/
structure Bus where
  lv_grid_id : Option Nat
deriving DecidableEq, Repr

/-- The grid topology: the buses table (only the field relevant here). -/
structure Topology where
  buses : List Bus
deriving DecidableEq, Repr

/-- Modelled from the spec: `Topology.lv_grids` yields one LV grid per
distinct `lv_grid_id` occurring in the buses table. -/
def Topology.lv_grids (t : Topology) : List LVGrid :=
  ((t.buses.filterMap Bus.lv_grid_id).dedup).map LVGrid.mk

/-- Modelled from the spec: `MVGrid.lv_grids` delegates to the topology
and yields the same LV grids as `Topology.lv_grids`. -/
def mv_grid_lv_grids (t : Topology) : List LVGrid :=
  Topology.lv_grids t

/-- Argument of `get_lv_grid`: either the grid's name string or its id. -/
inductive LVGridRef
  | byName (s : String)
  | byId (i : Nat)
deriving DecidableEq, Repr

/-- Modelled from the spec: `Topology.get_lv_grid` returns the LV grid
matching the given name string or integer id. -/
def Topology.get_lv_grid (t : Topology) : LVGridRef → Option LVGrid
  | .byName s => t.lv_grids.find? (fun g => decide (g.name = s))
  | .byId i => t.lv_grids.find? (fun g => decide (g.id = i))

/-! #### Injectivity of LV grid names -/

theorem digitChar_inj {a b : Nat} (ha : a < 10) (hb : b < 10)
    (h : digitChar a = digitChar b) : a = b := by
  interval_cases a <;> interval_cases b <;> revert h <;> decide

theorem natDigits_lt_ten (n : Nat) : ∀ d ∈ natDigits n, d < 10 := by
  induction n using Nat.strong_induction_on with
  | _ n ih =>
    intro d hd
    rw [natDigits] at hd
    split at hd
    · simp at hd
    · rename_i hn
      rcases List.mem_cons.mp hd with rfl | hd
      · exact Nat.mod_lt _ (by omega)
      · exact ih (n / 10) (Nat.div_lt_self (Nat.pos_of_ne_zero hn) (by omega)) d hd

theorem ofDigits_natDigits (n : Nat) : ofDigits (natDigits n) = n := by
  induction n using Nat.strong_induction_on with
  | _ n ih =>
    rw [natDigits]
    split
    · rename_i hn
      simp [hn, ofDigits]
    · rename_i hn
      rw [ofDigits, ih (n / 10) (Nat.div_lt_self (Nat.pos_of_ne_zero hn) (by omega))]
      omega

theorem natDigits_inj {a b : Nat} (h : natDigits a = natDigits b) : a = b := by
  have := congrArg ofDigits h
  rwa [ofDigits_natDigits, ofDigits_natDigits] at this

theorem lv_id_digits_lt_ten (n : Nat) : ∀ d ∈ lv_id_digits n, d < 10 := by
  unfold lv_id_digits
  split
  · intro d hd
    simp at hd
    omega
  · intro d hd
    exact natDigits_lt_ten n d (List.mem_reverse.mp hd)

theorem lv_id_digits_inj {a b : Nat} (h : lv_id_digits a = lv_id_digits b) :
    a = b := by
  unfold lv_id_digits at h
  split at h <;> split at h
  · omega
  · rename_i ha hb
    exfalso
    have h2 : natDigits b = [0] := by
      have := congrArg List.reverse h
      simpa using this.symm
    have := congrArg ofDigits h2
    rw [ofDigits_natDigits] at this
    simp [ofDigits] at this
    exact hb this
  · rename_i ha hb
    exfalso
    have h2 : natDigits a = [0] := by
      have := congrArg List.reverse h
      simpa using this
    have := congrArg ofDigits h2
    rw [ofDigits_natDigits] at this
    simp [ofDigits] at this
    exact ha this
  · exact natDigits_inj (List.reverse_injective h)

theorem map_digitChar_inj : ∀ {l1 l2 : List Nat}, (∀ d ∈ l1, d < 10) →
    (∀ d ∈ l2, d < 10) → l1.map digitChar = l2.map digitChar → l1 = l2
  | [], [], _, _, _ => rfl
  | [], _ :: _, _, _, h => by simp at h
  | _ :: _, [], _, _, h => by simp at h
  | a :: l1, b :: l2, h1, h2, h => by
    simp only [List.map_cons, List.cons.injEq] at h
    have ha := h1 a (List.mem_cons_self a l1)
    have hb := h2 b (List.mem_cons_self b l2)
    rw [digitChar_inj ha hb h.1,
      map_digitChar_inj (fun d hd => h1 d (List.mem_cons_of_mem _ hd))
        (fun d hd => h2 d (List.mem_cons_of_mem _ hd)) h.2]

theorem lv_grid_name_inj {g1 g2 : LVGrid} (h : g1.name = g2.name) :
    g1 = g2 := by
  unfold LVGrid.name at h
  have hd := congrArg String.data h
  have hd' : "LVGrid_".data ++ (lv_id_digits g1.id).map digitChar =
      "LVGrid_".data ++ (lv_id_digits g2.id).map digitChar := hd
  have := List.append_cancel_left hd'
  have hids := lv_id_digits_inj
    (map_digitChar_inj (lv_id_digits_lt_ten g1.id) (lv_id_digits_lt_ten g2.id) this)
  obtain ⟨i1⟩ := g1
  obtain ⟨i2⟩ := g2
  simpa using hids

theorem lv_grids_ids_nodup (t : Topology) :
    (t.lv_grids.map LVGrid.id).Nodup := by
  unfold Topology.lv_grids
  rw [List.map_map]
  have : LVGrid.id ∘ LVGrid.mk = id := rfl
  rw [this, List.map_id]
  exact List.nodup_dedup _

theorem find_eq_some_of_nodup_id {l : List LVGrid}
    (hn : (l.map LVGrid.id).Nodup) {g : LVGrid} (hg : g ∈ l)
    (p : LVGrid → Bool) (hp : ∀ g', p g' = true ↔ g'.id = g.id) :
    l.find? p = some g := by
  induction l with
  | nil => cases hg
  | cons a l ih =>
    simp only [List.map_cons, List.nodup_cons] at hn
    rcases List.mem_cons.mp hg with heq | hg'
    · subst heq
      rw [List.find?_cons_of_pos _ ((hp g).mpr rfl)]
    · by_cases hpa : p a = true
      · exfalso
        exact hn.1 ((hp a).mp hpa ▸ List.mem_map_of_mem LVGrid.id hg')
      · rw [List.find?_cons_of_neg _ (by simpa using hpa)]
        exact ih hn.2 hg'

/-- **C10.** For every LV grid of the topology, `get_lv_grid` called with
the grid's name string returns the same grid as `get_lv_grid` called with
its integer id (namely that grid), and the LV grids obtained from the
topology equal the LV grids obtained from the MV grid. -/
theorem get_lv_grid_name_id_and_mv_grid (t : Topology) (g : LVGrid)
    (hg : g ∈ t.lv_grids) :
    t.get_lv_grid (.byName g.name) = some g ∧
    t.get_lv_grid (.byId g.id) = some g ∧
    Topology.lv_grids t = mv_grid_lv_grids t := by
  have hn : (t.lv_grids.map LVGrid.id).Nodup := lv_grids_ids_nodup t
  refine ⟨?_, ?_, rfl⟩
  · unfold Topology.get_lv_grid
    apply find_eq_some_of_nodup_id hn hg
    intro g'
    simp only [decide_eq_true_eq]
    constructor
    · intro h
      exact congrArg LVGrid.id (lv_grid_name_inj h)
    · intro h
      have hgg : g' = g := by
        obtain ⟨i⟩ := g'
        obtain ⟨j⟩ := g
        simpa using h
      rw [hgg]
  · unfold Topology.get_lv_grid
    apply find_eq_some_of_nodup_id hn hg
    intro g'
    simp

/-- Witness for C10: the LV grid with id 170173 from the notebook, in a
topology whose buses table references it. -/
theorem get_lv_grid_name_id_and_mv_grid_witness :
    (Topology.mk [⟨some 170173⟩, ⟨none⟩]).get_lv_grid
      (.byName (LVGrid.mk 170173).name) = some ⟨170173⟩ ∧
    (Topology.mk [⟨some 170173⟩, ⟨none⟩]).get_lv_grid (.byId 170173) =
      some ⟨170173⟩ ∧
    Topology.lv_grids ⟨[⟨some 170173⟩, ⟨none⟩]⟩ =
      mv_grid_lv_grids ⟨[⟨some 170173⟩, ⟨none⟩]⟩ :=
  get_lv_grid_name_id_and_mv_grid _ _ (by decide)
